import Mathlib

/-!
Shallow embedding of the syncServerDemo repository's core:
the position arbitrator (gamesync/position_arbitrator.go), the
observer-side reconciliation handlers (client/game_client.go) and the
authority-side report window (server/game_server.go).

Conventions of the embedding:
* Go float64 coordinates are modelled as ℚ (exact field arithmetic);
  int64 game times as ℤ.  Go's int64 division truncates toward zero,
  which is Int.tdiv here.
* Go maps are modelled as functions into Option.
* Mutating methods become state-passing functions returning the new state.
-/

namespace SyncServer

/-- Embedding of protocol.PositionData (protocol/messages.go): one
position report for one entity at one logical game time. -/
structure PositionData where
  playerID : String
  x : ℚ
  y : ℚ
  gameTime : Int
deriving DecidableEq, Repr

instance : Inhabited PositionData := ⟨⟨"", 0, 0, 0⟩⟩

/-- Embedding of protocol.MoveData (protocol/messages.go): a
velocity-change (move_command) event. -/
structure MoveData where
  playerID : String
  vectorX : ℚ
  vectorY : ℚ
  gameTime : Int
deriving DecidableEq, Repr

/-- Embedding of protocol.PositionUpdateData (protocol/messages.go):
an arbitrated authoritative position broadcast to observers. -/
structure PositionUpdateData where
  playerID : String
  x : ℚ
  y : ℚ
  gameTime : Int
deriving DecidableEq, Repr

/-- Embedding of PositionArbitrator.isSimilar
(gamesync/position_arbitrator.go).  The Go code computes
math.Sqrt(pow(x1-x2,2) + pow(y1-y2,2)) <= epsilon.  Since a square root
is nonnegative, that holds exactly when 0 ≤ epsilon and the squared
distance is at most epsilon squared; we use the squared form to stay in
ℚ, and the equivalence with the real square-root formula is proved in
isSimilar_iff_sqrt_le below. -/
def isSimilar (eps : ℚ) (p1 p2 : PositionData) : Bool :=
  decide (0 ≤ eps ∧ (p1.x - p2.x) ^ 2 + (p1.y - p2.y) ^ 2 ≤ eps ^ 2)

/-- Embedding of the inner loop of PositionArbitrator.clusterPositions
(gamesync/position_arbitrator.go): scan indices j, j+1, ... of
positions; an index that is not yet used and whose report is similar to
the seed is appended to the cluster and marked used.  The Go bool slice
used is modelled as a function Nat → Bool. -/
def innerScan (eps : ℚ) (positions : List PositionData) (seed : PositionData) :
    Nat → (Nat → Bool) → List PositionData → List PositionData × (Nat → Bool)
  | j, used, cluster =>
    if h : j < positions.length then
      if used j then
        innerScan eps positions seed (j + 1) used cluster
      else if isSimilar eps seed (positions[j]) then
        innerScan eps positions seed (j + 1)
          (fun k => if k = j then true else used k)
          (cluster ++ [positions[j]])
      else
        innerScan eps positions seed (j + 1) used cluster
    else
      (cluster, used)
termination_by j => positions.length - j
decreasing_by all_goals omega

/-- Embedding of the outer loop of PositionArbitrator.clusterPositions
(gamesync/position_arbitrator.go): each not-yet-used index i seeds a new
cluster, is marked used, and the inner scan collects the similar
not-yet-used reports after it. -/
def outerScan (eps : ℚ) (positions : List PositionData) :
    Nat → (Nat → Bool) → List (List PositionData) → List (List PositionData)
  | i, used, clusters =>
    if h : i < positions.length then
      if used i then
        outerScan eps positions (i + 1) used clusters
      else
        let seed := positions[i]
        let scanned := innerScan eps positions seed (i + 1)
          (fun k => if k = i then true else used k) [seed]
        outerScan eps positions (i + 1) scanned.2 (clusters ++ [scanned.1])
    else
      clusters
termination_by i => positions.length - i
decreasing_by all_goals omega

/-- Embedding of PositionArbitrator.clusterPositions
(gamesync/position_arbitrator.go): start the outer scan at index 0 with
every index unused and no clusters. -/
def clusterPositions (eps : ℚ) (positions : List PositionData) :
    List (List PositionData) :=
  outerScan eps positions 0 (fun _ => false) []

/-- Embedding of PositionArbitrator.averagePosition
(gamesync/position_arbitrator.go): componentwise arithmetic mean of x
and y, mean of the game times with Go's truncating int64 division, and
the player id of the first member. -/
def averagePosition (positions : List PositionData) : Option PositionData :=
  match positions with
  | [] => none
  | p0 :: _ =>
    let sumX := positions.foldl (fun s p => s + p.x) 0
    let sumY := positions.foldl (fun s p => s + p.y) 0
    let sumTime := positions.foldl (fun s p => s + p.gameTime) 0
    let count : ℚ := positions.length
    some { playerID := p0.playerID
           x := sumX / count
           y := sumY / count
           gameTime := Int.tdiv sumTime positions.length }

/-- Embedding of PositionArbitrator.Arbitrate
(gamesync/position_arbitrator.go): none on empty input, the single
report unchanged on a singleton, otherwise cluster and keep the first
cluster of maximal size (the Go loop starts from clusters[0] and only
replaces on a strictly larger cluster) and average it.  The empty-cluster
branch mirrors the fact that Go would index clusters[0]; it is proved
unreachable for nonempty input. -/
def Arbitrate (eps : ℚ) (positions : List PositionData) : Option PositionData :=
  match positions with
  | [] => none
  | [p] => some p
  | _ :: _ :: _ =>
    match clusterPositions eps positions with
    | [] => none
    | c0 :: rest =>
      let maxCluster := (c0 :: rest).foldl
        (fun best cluster => if best.length < cluster.length then cluster else best) c0
      averagePosition maxCluster

/-- Embedding of client.LocalPlayerState (client/game_client.go): the
per-entity kinematic state of one observer — position, velocity and the
checkpoint time LastUpdateTime at which they were last exact. -/
structure LocalPlayerState where
  playerID : String
  x : ℚ
  y : ℚ
  velocityX : ℚ
  velocityY : ℚ
  lastUpdateTime : Int
deriving DecidableEq, Repr

/-- Embedding of GameClient.predictPosition (client/game_client.go):
pure extrapolation of the stored position by the stored velocity over
the elapsed logical time in seconds; the state is not modified (the
function only returns the pair). -/
def predictPosition (player : LocalPlayerState) (targetTime : Int) : ℚ × ℚ :=
  let deltaTime : ℚ := ((targetTime - player.lastUpdateTime : Int) : ℚ) / 1000
  (player.x + player.velocityX * deltaTime, player.y + player.velocityY * deltaTime)

/-- Embedding of GameClient.updatePlayerPosition (client/game_client.go):
the mutating advance — fold the motion accrued under the current
velocity into the position and move the checkpoint to targetTime. -/
def updatePlayerPosition (player : LocalPlayerState) (targetTime : Int) :
    LocalPlayerState :=
  let deltaTime : ℚ := ((targetTime - player.lastUpdateTime : Int) : ℚ) / 1000
  { player with
    x := player.x + player.velocityX * deltaTime
    y := player.y + player.velocityY * deltaTime
    lastUpdateTime := targetTime }

/-- Embedding of GameClient.handleMoveCommand (client/game_client.go).
The Go code looks the player up in localPlayers and returns without any
change when it is absent; otherwise it first advances the state to the
event's game time under the old velocity and then overwrites the
velocity with the event's direction vector scaled by moveSpeed. -/
def handleMoveCommand (moveSpeed : ℚ)
    (localPlayers : String → Option LocalPlayerState) (moveData : MoveData) :
    String → Option LocalPlayerState :=
  match localPlayers moveData.playerID with
  | none => localPlayers
  | some player =>
    let advanced := updatePlayerPosition player moveData.gameTime
    let moved := { advanced with
      velocityX := moveData.vectorX * moveSpeed
      velocityY := moveData.vectorY * moveSpeed }
    fun pid => if pid = moveData.playerID then some moved else localPlayers pid

/-- Movement speed constant set in client.NewGameClient
(client/game_client.go): 10 units per second. -/
def defaultMoveSpeed : ℚ := 10

/-- Embedding of GameClient.handlePositionUpdate (client/game_client.go).
The Go code predicts the local position at the update's game time,
computes distance = math.Sqrt(errorX^2 + errorY^2), and snaps position
and checkpoint (velocity untouched) only when distance > 0.5.  Since
both sides are nonnegative, distance > 0.5 holds exactly when the
squared error exceeds (1/2)^2, which is the form used here; the
equivalence with the real square-root formula is proved in claim C6. -/
def handlePositionUpdate (localPlayers : String → Option LocalPlayerState)
    (updateData : PositionUpdateData) : String → Option LocalPlayerState :=
  match localPlayers updateData.playerID with
  | none => localPlayers
  | some player =>
    let localPos := predictPosition player updateData.gameTime
    let errorX := updateData.x - localPos.1
    let errorY := updateData.y - localPos.2
    if ((1 : ℚ) / 2) ^ 2 < errorX ^ 2 + errorY ^ 2 then
      fun pid =>
        if pid = updateData.playerID then
          some { player with
            x := updateData.x
            y := updateData.y
            lastUpdateTime := updateData.gameTime }
        else localPlayers pid
    else
      localPlayers

/-- Embedding of GameServer.handlePositionSync (server/game_server.go):
for every report in the inbound batch from client clientID, upsert
window[report.playerID][clientID] := report.  The nested Go map
positionReports is modelled as a function into Option. -/
def handlePositionSync (clientID : String) (positions : List PositionData)
    (window : String → String → Option PositionData) :
    String → String → Option PositionData :=
  positions.foldl
    (fun w pos => fun e o =>
      if e = pos.playerID ∧ o = clientID then some pos else w e o)
    window

/-- Derived list-level description of clusterPositions, proved equal to
the index-and-used-flags loops in clusterPositions_eq_clusterPartition:
the head seeds a cluster containing exactly the later reports similar to
it, and the remaining reports are clustered recursively. -/
def clusterPartition (eps : ℚ) : List PositionData → List (List PositionData)
  | [] => []
  | p :: rest =>
    (p :: rest.filter (fun q => isSimilar eps p q)) ::
      clusterPartition eps (rest.filter (fun q => !(isSimilar eps p q)))
termination_by l => l.length
decreasing_by
  simp only [List.length_cons]
  exact Nat.lt_succ_of_le (List.length_filter_le _ _)

/-- Reports of positions.length taken from index i on whose index is not
yet marked used, in index order.  This is the abstraction that connects
the used-flag loops to the list-level clusterPartition. -/
def unusedFrom (positions : List PositionData) (used : Nat → Bool) :
    Nat → List PositionData
  | i =>
    if h : i < positions.length then
      (if used i then [] else [positions[i]]) ++
        unusedFrom positions used (i + 1)
    else []
termination_by i => positions.length - i
decreasing_by all_goals omega

/-! Concrete data used by the worked examples and witnesses. -/

/-- Report A = (0, 0) of the seed-relative clustering example. -/
def reportA : PositionData := { playerID := "e", x := 0, y := 0, gameTime := 0 }

/-- Report B = (0, 0.9) of the seed-relative clustering example. -/
def reportB : PositionData := { playerID := "e", x := 0, y := 9/10, gameTime := 0 }

/-- Report C = (0, 1.8) of the seed-relative clustering example. -/
def reportC : PositionData := { playerID := "e", x := 0, y := 9/5, gameTime := 0 }

/-- A sample tracked player state used by witnesses. -/
def samplePlayer : LocalPlayerState :=
  { playerID := "p1", x := 3, y := 4, velocityX := 5, velocityY := -2,
    lastUpdateTime := 1000 }

/-- A sample player map tracking exactly samplePlayer. -/
def samplePlayers : String → Option LocalPlayerState :=
  fun pid => if pid = "p1" then some samplePlayer else none

/-- A sample authoritative position update agreeing exactly with the
prediction of samplePlayer at game time 2000. -/
def sampleUpdate : PositionUpdateData :=
  { playerID := "p1", x := 8, y := 2, gameTime := 2000 }

/-- A sample inbound report batch with two reports for the same entity. -/
def sampleBatch : List PositionData :=
  [{ playerID := "e", x := 1, y := 2, gameTime := 3 },
   { playerID := "e", x := 4, y := 5, gameTime := 6 }]

/-- A sample empty report window. -/
def sampleWindow : String → String → Option PositionData := fun _ _ => none

/-! Lemmas about unusedFrom. -/

theorem unusedFrom_stop (positions : List PositionData) (used : Nat → Bool)
    (i : Nat) (h : positions.length ≤ i) : unusedFrom positions used i = [] := by
  rw [unusedFrom]
  simp [Nat.not_lt.mpr h]

theorem unusedFrom_used (positions : List PositionData) (used : Nat → Bool)
    (i : Nat) (h : i < positions.length) (hu : used i = true) :
    unusedFrom positions used i = unusedFrom positions used (i + 1) := by
  rw [unusedFrom]
  simp [h, hu]

theorem unusedFrom_unused (positions : List PositionData) (used : Nat → Bool)
    (i : Nat) (h : i < positions.length) (hu : used i = false) :
    unusedFrom positions used i =
      positions[i] :: unusedFrom positions used (i + 1) := by
  rw [unusedFrom]
  simp [h, hu]

theorem unusedFrom_congr (positions : List PositionData)
    (used used' : Nat → Bool) (i : Nat)
    (hagree : ∀ k, i ≤ k → used k = used' k) :
    unusedFrom positions used i = unusedFrom positions used' i := by
  by_cases h : i < positions.length
  · have hrec := unusedFrom_congr positions used used' (i + 1)
      (fun k hk => hagree k (by omega))
    cases hu : used i with
    | true =>
      rw [unusedFrom_used positions used i h hu,
        unusedFrom_used positions used' i h ((hagree i le_rfl).symm.trans hu),
        hrec]
    | false =>
      rw [unusedFrom_unused positions used i h hu,
        unusedFrom_unused positions used' i h ((hagree i le_rfl).symm.trans hu),
        hrec]
  · rw [unusedFrom_stop _ _ _ (by omega), unusedFrom_stop _ _ _ (by omega)]
termination_by positions.length - i

theorem unusedFrom_all_false (positions : List PositionData) (i : Nat) :
    unusedFrom positions (fun _ => false) i = positions.drop i := by
  by_cases h : i < positions.length
  · rw [unusedFrom_unused positions _ i h rfl,
      unusedFrom_all_false positions (i + 1), List.drop_eq_getElem_cons h]
  · rw [unusedFrom_stop _ _ _ (by omega),
      List.drop_eq_nil_of_le (by omega)]
termination_by positions.length - i

/-! Lemmas about innerScan: step equations, then the characterization of
its cluster and of the reports left unused after it. -/

theorem innerScan_stop (eps : ℚ) (positions : List PositionData)
    (seed : PositionData) (j : Nat) (used : Nat → Bool)
    (cluster : List PositionData) (h : positions.length ≤ j) :
    innerScan eps positions seed j used cluster = (cluster, used) := by
  rw [innerScan]
  simp [Nat.not_lt.mpr h]

theorem innerScan_used (eps : ℚ) (positions : List PositionData)
    (seed : PositionData) (j : Nat) (used : Nat → Bool)
    (cluster : List PositionData) (h : j < positions.length)
    (hu : used j = true) :
    innerScan eps positions seed j used cluster =
      innerScan eps positions seed (j + 1) used cluster := by
  rw [innerScan]
  simp [h, hu]

theorem innerScan_sim (eps : ℚ) (positions : List PositionData)
    (seed : PositionData) (j : Nat) (used : Nat → Bool)
    (cluster : List PositionData) (h : j < positions.length)
    (hu : used j = false)
    (hs : isSimilar eps seed (positions[j]) = true) :
    innerScan eps positions seed j used cluster =
      innerScan eps positions seed (j + 1)
        (fun k => if k = j then true else used k)
        (cluster ++ [positions[j]]) := by
  rw [innerScan]
  simp [h, hu, hs]

theorem innerScan_notsim (eps : ℚ) (positions : List PositionData)
    (seed : PositionData) (j : Nat) (used : Nat → Bool)
    (cluster : List PositionData) (h : j < positions.length)
    (hu : used j = false)
    (hs : isSimilar eps seed (positions[j]) = false) :
    innerScan eps positions seed j used cluster =
      innerScan eps positions seed (j + 1) used cluster := by
  rw [innerScan]
  simp [h, hu, hs]

theorem innerScan_used_mono (eps : ℚ) (positions : List PositionData)
    (seed : PositionData) (j : Nat) (used : Nat → Bool)
    (cluster : List PositionData) (k : Nat) (hk : used k = true) :
    (innerScan eps positions seed j used cluster).2 k = true := by
  by_cases h : j < positions.length
  · cases hu : used j with
    | true =>
      rw [innerScan_used eps positions seed j used cluster h hu]
      exact innerScan_used_mono eps positions seed (j + 1) used cluster k hk
    | false =>
      cases hs : isSimilar eps seed (positions[j]) with
      | true =>
        rw [innerScan_sim eps positions seed j used cluster h hu hs]
        apply innerScan_used_mono
        by_cases hkj : k = j
        · simp [hkj]
        · simp [hkj, hk]
      | false =>
        rw [innerScan_notsim eps positions seed j used cluster h hu hs]
        exact innerScan_used_mono eps positions seed (j + 1) used cluster k hk
  · rw [innerScan_stop eps positions seed j used cluster (by omega)]
    exact hk
termination_by positions.length - j

theorem innerScan_used_lt (eps : ℚ) (positions : List PositionData)
    (seed : PositionData) (j : Nat) (used : Nat → Bool)
    (cluster : List PositionData) (k : Nat) (hkj : k < j) :
    (innerScan eps positions seed j used cluster).2 k = used k := by
  by_cases h : j < positions.length
  · cases hu : used j with
    | true =>
      rw [innerScan_used eps positions seed j used cluster h hu]
      exact innerScan_used_lt eps positions seed (j + 1) used cluster k (by omega)
    | false =>
      cases hs : isSimilar eps seed (positions[j]) with
      | true =>
        rw [innerScan_sim eps positions seed j used cluster h hu hs]
        rw [innerScan_used_lt eps positions seed (j + 1) _ _ k (by omega)]
        simp [show k ≠ j by omega]
      | false =>
        rw [innerScan_notsim eps positions seed j used cluster h hu hs]
        exact innerScan_used_lt eps positions seed (j + 1) used cluster k (by omega)
  · rw [innerScan_stop eps positions seed j used cluster (by omega)]
termination_by positions.length - j

theorem innerScan_fst (eps : ℚ) (positions : List PositionData)
    (seed : PositionData) (j : Nat) (used : Nat → Bool)
    (cluster : List PositionData) :
    (innerScan eps positions seed j used cluster).1 =
      cluster ++
        (unusedFrom positions used j).filter (fun q => isSimilar eps seed q) := by
  by_cases h : j < positions.length
  · cases hu : used j with
    | true =>
      rw [innerScan_used eps positions seed j used cluster h hu,
        innerScan_fst eps positions seed (j + 1) used cluster,
        unusedFrom_used positions used j h hu]
    | false =>
      cases hs : isSimilar eps seed (positions[j]) with
      | true =>
        rw [innerScan_sim eps positions seed j used cluster h hu hs,
          innerScan_fst eps positions seed (j + 1) _ _,
          unusedFrom_congr positions (fun k => if k = j then true else used k)
            used (j + 1) (fun k hk => by simp [show k ≠ j by omega]),
          unusedFrom_unused positions used j h hu]
        simp [List.filter_cons, hs]
      | false =>
        rw [innerScan_notsim eps positions seed j used cluster h hu hs,
          innerScan_fst eps positions seed (j + 1) used cluster,
          unusedFrom_unused positions used j h hu]
        simp [List.filter_cons, hs]
  · rw [innerScan_stop eps positions seed j used cluster (by omega),
      unusedFrom_stop positions used j (by omega)]
    simp
termination_by positions.length - j

theorem innerScan_snd (eps : ℚ) (positions : List PositionData)
    (seed : PositionData) (j : Nat) (used : Nat → Bool)
    (cluster : List PositionData) :
    unusedFrom positions (innerScan eps positions seed j used cluster).2 j =
      (unusedFrom positions used j).filter
        (fun q => !(isSimilar eps seed q)) := by
  by_cases h : j < positions.length
  · cases hu : used j with
    | true =>
      rw [innerScan_used eps positions seed j used cluster h hu]
      rw [unusedFrom_used positions _ j h
        (innerScan_used_lt eps positions seed (j + 1) used cluster j (by omega)
          |>.trans hu)]
      rw [innerScan_snd eps positions seed (j + 1) used cluster,
        unusedFrom_used positions used j h hu]
    | false =>
      cases hs : isSimilar eps seed (positions[j]) with
      | true =>
        rw [innerScan_sim eps positions seed j used cluster h hu hs]
        rw [unusedFrom_used positions _ j h
          (innerScan_used_mono eps positions seed (j + 1) _ _ j (by simp))]
        rw [innerScan_snd eps positions seed (j + 1) _ _,
          unusedFrom_congr positions (fun k => if k = j then true else used k)
            used (j + 1) (fun k hk => by simp [show k ≠ j by omega]),
          unusedFrom_unused positions used j h hu]
        simp [List.filter_cons, hs]
      | false =>
        rw [innerScan_notsim eps positions seed j used cluster h hu hs]
        rw [unusedFrom_unused positions _ j h
          (innerScan_used_lt eps positions seed (j + 1) used cluster j (by omega)
            |>.trans hu)]
        rw [innerScan_snd eps positions seed (j + 1) used cluster,
          unusedFrom_unused positions used j h hu]
        simp [List.filter_cons, hs]
  · rw [innerScan_stop eps positions seed j used cluster (by omega),
      unusedFrom_stop positions used j (by omega)]
    simp [unusedFrom_stop positions used j (by omega)]
termination_by positions.length - j

/-! Lemmas about outerScan and the equivalence of the index-based
clustering loops with the list-level clusterPartition. -/

theorem clusterPartition_nil (eps : ℚ) : clusterPartition eps [] = [] := by
  rw [clusterPartition]

theorem clusterPartition_cons (eps : ℚ) (p : PositionData)
    (rest : List PositionData) :
    clusterPartition eps (p :: rest) =
      (p :: rest.filter (fun q => isSimilar eps p q)) ::
        clusterPartition eps (rest.filter (fun q => !(isSimilar eps p q))) := by
  rw [clusterPartition]

theorem outerScan_stop (eps : ℚ) (positions : List PositionData) (i : Nat)
    (used : Nat → Bool) (clusters : List (List PositionData))
    (h : positions.length ≤ i) :
    outerScan eps positions i used clusters = clusters := by
  rw [outerScan]
  simp [Nat.not_lt.mpr h]

theorem outerScan_used (eps : ℚ) (positions : List PositionData) (i : Nat)
    (used : Nat → Bool) (clusters : List (List PositionData))
    (h : i < positions.length) (hu : used i = true) :
    outerScan eps positions i used clusters =
      outerScan eps positions (i + 1) used clusters := by
  rw [outerScan]
  simp [h, hu]

theorem outerScan_seed (eps : ℚ) (positions : List PositionData) (i : Nat)
    (used : Nat → Bool) (clusters : List (List PositionData))
    (h : i < positions.length) (hu : used i = false) :
    outerScan eps positions i used clusters =
      outerScan eps positions (i + 1)
        (innerScan eps positions (positions[i]) (i + 1)
          (fun k => if k = i then true else used k) [positions[i]]).2
        (clusters ++ [(innerScan eps positions (positions[i]) (i + 1)
          (fun k => if k = i then true else used k) [positions[i]]).1]) := by
  rw [outerScan]
  simp [h, hu]

theorem outerScan_eq (eps : ℚ) (positions : List PositionData) (i : Nat)
    (used : Nat → Bool) (clusters : List (List PositionData)) :
    outerScan eps positions i used clusters =
      clusters ++ clusterPartition eps (unusedFrom positions used i) := by
  by_cases h : i < positions.length
  · cases hu : used i with
    | true =>
      rw [outerScan_used eps positions i used clusters h hu,
        outerScan_eq eps positions (i + 1) used clusters,
        unusedFrom_used positions used i h hu]
    | false =>
      have hmark : ∀ k, i + 1 ≤ k →
          (fun k => if k = i then true else used k) k = used k :=
        fun k hk => by simp [show k ≠ i by omega]
      rw [outerScan_seed eps positions i used clusters h hu,
        outerScan_eq eps positions (i + 1) _ _,
        innerScan_snd, innerScan_fst,
        unusedFrom_congr positions _ used (i + 1) hmark,
        unusedFrom_unused positions used i h hu,
        clusterPartition_cons]
      simp
  · rw [outerScan_stop eps positions i used clusters (by omega),
      unusedFrom_stop positions used i (by omega),
      clusterPartition_nil]
    simp
termination_by positions.length - i

/-- The index-and-flags clustering loops of the Go source compute
exactly the list-level seed-relative partition. -/
theorem clusterPositions_eq_clusterPartition (eps : ℚ)
    (positions : List PositionData) :
    clusterPositions eps positions = clusterPartition eps positions := by
  unfold clusterPositions
  rw [outerScan_eq, unusedFrom_all_false]
  simp

/-- Head equation of the source clustering: the first report seeds the
first cluster, which contains exactly the later reports similar to that
seed; the reports not similar to the seed are clustered recursively. -/
theorem clusterPositions_cons (eps : ℚ) (p : PositionData)
    (rest : List PositionData) :
    clusterPositions eps (p :: rest) =
      (p :: rest.filter (fun q => isSimilar eps p q)) ::
        clusterPositions eps (rest.filter (fun q => !(isSimilar eps p q))) := by
  rw [clusterPositions_eq_clusterPartition, clusterPartition_cons,
    clusterPositions_eq_clusterPartition]

/-- The similarity test agrees with the real-valued Euclidean distance
comparison performed by the Go source. -/
theorem isSimilar_iff_sqrt_le (eps : ℚ) (p q : PositionData) :
    isSimilar eps p q = true ↔
      Real.sqrt (((p.x - q.x : ℚ) : ℝ) ^ 2 + ((p.y - q.y : ℚ) : ℝ) ^ 2) ≤
        (eps : ℝ) := by
  unfold isSimilar
  rw [decide_eq_true_iff, Real.sqrt_le_iff]
  constructor
  · rintro ⟨h1, h2⟩
    constructor
    · exact_mod_cast h1
    · push_cast
      exact_mod_cast h2
  · rintro ⟨h1, h2⟩
    constructor
    · exact_mod_cast h1
    · push_cast at h2
      exact_mod_cast h2

theorem clusterPartition_join_perm (eps : ℚ) : ∀ l : List PositionData,
    List.Perm (clusterPartition eps l).flatten l
  | [] => by simp [clusterPartition_nil]
  | p :: rest => by
    rw [clusterPartition_cons]
    have h1 := clusterPartition_join_perm eps
      (rest.filter (fun q => !(isSimilar eps p q)))
    have h2 : List.Perm
        (rest.filter (fun q => isSimilar eps p q) ++
          (clusterPartition eps
            (rest.filter (fun q => !(isSimilar eps p q)))).flatten)
        (rest.filter (fun q => isSimilar eps p q) ++
          rest.filter (fun q => !(isSimilar eps p q))) :=
      List.Perm.append_left _ h1
    have h3 := List.filter_append_perm (fun q => isSimilar eps p q) rest
    simpa using List.Perm.cons p (h2.trans h3)
termination_by l => l.length
decreasing_by
  simp only [List.length_cons]
  exact Nat.lt_succ_of_le (List.length_filter_le _ _)

theorem clusterPartition_mem_ne_nil (eps : ℚ) : ∀ l : List PositionData,
    ∀ c ∈ clusterPartition eps l, c ≠ []
  | [] => by simp [clusterPartition_nil]
  | p :: rest => by
    rw [clusterPartition_cons]
    intro c hc
    rcases List.mem_cons.mp hc with h | h
    · subst h
      exact List.cons_ne_nil _ _
    · exact clusterPartition_mem_ne_nil eps _ c h
termination_by l => l.length
decreasing_by
  simp only [List.length_cons]
  exact Nat.lt_succ_of_le (List.length_filter_le _ _)

/-- Characterization of the Go maximum-cluster loop: folding the
pick-strictly-longer step over a list either leaves the initial value
(when nothing is strictly longer) or returns the first element of
maximal length among those strictly longer than the initial value. -/
theorem foldl_max_first : ∀ (l : List (List PositionData)) (b : List PositionData),
    (l.foldl (fun best cluster =>
        if best.length < cluster.length then cluster else best) b = b ∧
      ∀ c ∈ l, c.length ≤ b.length) ∨
    ∃ k, ∃ hk : k < l.length,
      l.foldl (fun best cluster =>
        if best.length < cluster.length then cluster else best) b = l[k] ∧
      b.length < l[k].length ∧
      (∀ j, ∀ hj : j < l.length, l[j].length ≤ l[k].length) ∧
      (∀ j, ∀ hj : j < l.length, j < k → l[j].length < l[k].length)
  | [], b => by simp
  | c :: l, b => by
    simp only [List.foldl_cons]
    by_cases hc : b.length < c.length
    · rw [if_pos hc]
      rcases foldl_max_first l c with ⟨heq, hall⟩ | ⟨k, hk, heq, hlt, hmax, hfirst⟩
      · right
        refine ⟨0, by simp, ?_, ?_, ?_, ?_⟩
        · simpa using heq
        · simpa using hc
        · intro j hj
          match j with
          | 0 => simp
          | j + 1 =>
            simp only [List.getElem_cons_succ, List.getElem_cons_zero]
            exact hall _ (l.getElem_mem _)
        · intro j hj hj0
          omega
      · right
        refine ⟨k + 1, by simpa using hk, ?_, ?_, ?_, ?_⟩
        · simpa using heq
        · simpa using lt_trans hc hlt
        · intro j hj
          match j with
          | 0 =>
            simp only [List.getElem_cons_succ, List.getElem_cons_zero]
            exact le_of_lt hlt
          | j + 1 =>
            simp only [List.getElem_cons_succ]
            exact hmax j (by simpa using hj)
        · intro j hj hjk
          match j with
          | 0 =>
            simp only [List.getElem_cons_succ, List.getElem_cons_zero]
            exact hlt
          | j + 1 =>
            simp only [List.getElem_cons_succ]
            exact hfirst j (by simpa using hj) (by omega)
    · rw [if_neg hc]
      rcases foldl_max_first l b with ⟨heq, hall⟩ | ⟨k, hk, heq, hlt, hmax, hfirst⟩
      · left
        refine ⟨heq, ?_⟩
        intro c' hc'
        rcases List.mem_cons.mp hc' with h | h
        · subst h
          omega
        · exact hall c' h
      · right
        refine ⟨k + 1, by simpa using hk, ?_, ?_, ?_, ?_⟩
        · simpa using heq
        · simpa using hlt
        · intro j hj
          match j with
          | 0 =>
            simp only [List.getElem_cons_succ, List.getElem_cons_zero]
            exact le_of_lt (lt_of_le_of_lt (Nat.le_of_not_lt hc) hlt)
          | j + 1 =>
            simp only [List.getElem_cons_succ]
            exact hmax j (by simpa using hj)
        · intro j hj hjk
          match j with
          | 0 =>
            simp only [List.getElem_cons_succ, List.getElem_cons_zero]
            exact lt_of_le_of_lt (Nat.le_of_not_lt hc) hlt
          | j + 1 =>
            simp only [List.getElem_cons_succ]
            exact hfirst j (by simpa using hj) (by omega)

/-- The running-sum loops of averagePosition compute list sums. -/
theorem foldl_add_eq {M : Type} [AddCommMonoid M] (f : PositionData → M) :
    ∀ (l : List PositionData) (init : M),
      l.foldl (fun s p => s + f p) init = init + (l.map f).sum
  | [], init => by simp
  | p :: rest, init => by
    simp [List.foldl_cons, foldl_add_eq f rest (init + f p), add_assoc]

/-- Unfolding of Arbitrate on an input of two or more reports: cluster,
fold the pick-strictly-longer step over all clusters starting from the
first one, and average the selected cluster. -/
theorem Arbitrate_cons_cons (eps : ℚ) (p1 p2 : PositionData)
    (rest : List PositionData) :
    Arbitrate eps (p1 :: p2 :: rest) =
      averagePosition
        (((p1 :: (p2 :: rest).filter (fun q => isSimilar eps p1 q)) ::
            clusterPositions eps
              ((p2 :: rest).filter (fun q => !(isSimilar eps p1 q)))).foldl
          (fun best cluster =>
            if best.length < cluster.length then cluster else best)
          (p1 :: (p2 :: rest).filter (fun q => isSimilar eps p1 q))) := by
  have hcs := clusterPositions_cons eps p1 (p2 :: rest)
  unfold Arbitrate
  rw [hcs]

theorem clusterPositions_nil (eps : ℚ) : clusterPositions eps [] = [] := by
  rw [clusterPositions_eq_clusterPartition, clusterPartition_nil]

theorem isSimilar_reportA_reportB : isSimilar 1 reportA reportB = true := by
  simp only [isSimilar, reportA, reportB, decide_eq_true_iff]
  norm_num

theorem isSimilar_reportA_reportC : isSimilar 1 reportA reportC = false := by
  simp only [isSimilar, reportA, reportC]
  rw [decide_eq_false_iff_not]
  intro hcon
  norm_num at hcon

/-- Claim C2: clustering is seed-relative — the head report of the
remaining input seeds a cluster that contains exactly the later
unassigned reports whose Euclidean distance to that seed is at most
epsilon (isSimilar agrees with the real square-root distance test), and
the reports not similar to the seed are clustered recursively, never
being compared to other members or a centroid.  On the worked example
A=(0,0), B=(0,0.9), C=(0,1.8) with epsilon 1, B joins the cluster of A,
C seeds its own, and arbitration returns the mean (0, 0.45). -/
theorem C2_seed_relative_clustering :
    (∀ (eps : ℚ) (p : PositionData) (rest : List PositionData),
      clusterPositions eps (p :: rest) =
        (p :: rest.filter (fun q => isSimilar eps p q)) ::
          clusterPositions eps (rest.filter (fun q => !(isSimilar eps p q)))) ∧
    (∀ (eps : ℚ) (p q : PositionData),
      isSimilar eps p q = true ↔
        Real.sqrt (((p.x - q.x : ℚ) : ℝ) ^ 2 + ((p.y - q.y : ℚ) : ℝ) ^ 2) ≤
          (eps : ℝ)) ∧
    clusterPositions 1 [reportA, reportB, reportC] =
      [[reportA, reportB], [reportC]] ∧
    Arbitrate 1 [reportA, reportB, reportC] =
      some { playerID := "e", x := 0, y := 9 / 20, gameTime := 0 } := by
  refine ⟨clusterPositions_cons, isSimilar_iff_sqrt_le, ?_, ?_⟩
  · rw [clusterPositions_cons]
    simp only [List.filter_cons, List.filter_nil, isSimilar_reportA_reportB,
      isSimilar_reportA_reportC, Bool.not_true, Bool.not_false,
      Bool.false_eq_true, if_true, if_false, ite_true, ite_false]
    rw [clusterPositions_cons]
    simp only [List.filter_nil]
    rw [clusterPositions_nil]
  · rw [Arbitrate_cons_cons]
    simp only [List.filter_cons, List.filter_nil, isSimilar_reportA_reportB,
      isSimilar_reportA_reportC, Bool.not_true, Bool.not_false,
      Bool.false_eq_true, if_true, if_false, ite_true, ite_false]
    rw [clusterPositions_cons]
    simp only [List.filter_nil]
    rw [clusterPositions_nil]
    simp only [List.foldl_cons, List.foldl_nil, List.length_cons,
      List.length_nil]
    norm_num [averagePosition, reportA, reportB]

/-- Claim C3: on two or more reports, Arbitrate returns the average of a
cluster of maximal membership, and among the clusters of maximal
membership it is the one formed first — every earlier cluster (earlier
seed in input order) is strictly smaller. -/
theorem C3_largest_cluster_earliest_tie (eps : ℚ)
    (positions : List PositionData) (h : 2 ≤ positions.length) :
    ∃ k, ∃ hk : k < (clusterPositions eps positions).length,
      Arbitrate eps positions =
        averagePosition ((clusterPositions eps positions)[k]) ∧
      (∀ j, ∀ hj : j < (clusterPositions eps positions).length,
        ((clusterPositions eps positions)[j]).length ≤
          ((clusterPositions eps positions)[k]).length) ∧
      ∀ j, ∀ hj : j < (clusterPositions eps positions).length, j < k →
        ((clusterPositions eps positions)[j]).length <
          ((clusterPositions eps positions)[k]).length := by
  rcases positions with _ | ⟨p1, rest1⟩
  · simp at h
  rcases rest1 with _ | ⟨p2, rest⟩
  · simp at h
  clear h
  rw [Arbitrate_cons_cons, clusterPositions_cons]
  set c0 := p1 :: (p2 :: rest).filter (fun q => isSimilar eps p1 q) with hc0
  set crest :=
    clusterPositions eps ((p2 :: rest).filter (fun q => !(isSimilar eps p1 q)))
    with hcrest
  rcases foldl_max_first (c0 :: crest) c0 with
    ⟨heq, hall⟩ | ⟨k, hk, heq, hlt, hmax, hfirst⟩
  · refine ⟨0, by simp, ?_, ?_, ?_⟩
    · rw [heq]
      rfl
    · intro j hj
      match j with
      | 0 => exact le_rfl
      | j + 1 =>
        simp only [List.getElem_cons_succ, List.getElem_cons_zero]
        exact hall _ (List.mem_cons_of_mem c0 (crest.getElem_mem _))
    · intro j hj hj0
      omega
  · exact ⟨k, hk, by rw [heq], hmax, hfirst⟩

/-- Claim C3, witness at the concrete three-report example. -/
theorem C3_witness :
    2 ≤ ([reportA, reportB, reportC] : List PositionData).length ∧
    ∃ k, ∃ hk : k < (clusterPositions 1 [reportA, reportB, reportC]).length,
      Arbitrate 1 [reportA, reportB, reportC] =
        averagePosition ((clusterPositions 1 [reportA, reportB, reportC])[k]) ∧
      (∀ j, ∀ hj : j < (clusterPositions 1 [reportA, reportB, reportC]).length,
        ((clusterPositions 1 [reportA, reportB, reportC])[j]).length ≤
          ((clusterPositions 1 [reportA, reportB, reportC])[k]).length) ∧
      ∀ j, ∀ hj : j < (clusterPositions 1 [reportA, reportB, reportC]).length,
        j < k →
        ((clusterPositions 1 [reportA, reportB, reportC])[j]).length <
          ((clusterPositions 1 [reportA, reportB, reportC])[k]).length :=
  ⟨by norm_num,
   C3_largest_cluster_earliest_tie 1 [reportA, reportB, reportC] (by norm_num)⟩

/-- Claim C4: averagePosition of a winning cluster of two or more
reports is some report whose x and y are the arithmetic means of the
members, whose logical time is the truncating integer division of the
sum of the members' times by the member count, and whose entity id is
carried from a member.  Claim C3 shows the output of Arbitrate on two or
more reports is exactly averagePosition of the winning cluster. -/
theorem C4_average_is_componentwise_mean (positions : List PositionData)
    (h : 2 ≤ positions.length) :
    ∃ r : PositionData,
      averagePosition positions = some r ∧
      r.x = (positions.map (fun p => p.x)).sum / (positions.length : ℚ) ∧
      r.y = (positions.map (fun p => p.y)).sum / (positions.length : ℚ) ∧
      r.gameTime =
        Int.tdiv ((positions.map (fun p => p.gameTime)).sum)
          (positions.length : Int) ∧
      ∃ p ∈ positions, r.playerID = p.playerID := by
  rcases positions with _ | ⟨p0, rest⟩
  · simp at h
  · refine ⟨{ playerID := p0.playerID
              x := ((p0 :: rest).foldl (fun s p => s + p.x) 0) /
                (((p0 :: rest).length : ℚ))
              y := ((p0 :: rest).foldl (fun s p => s + p.y) 0) /
                (((p0 :: rest).length : ℚ))
              gameTime := Int.tdiv
                ((p0 :: rest).foldl (fun s p => s + p.gameTime) 0)
                (((p0 :: rest).length : Int)) },
      rfl, ?_, ?_, ?_, ⟨p0, List.mem_cons_self p0 rest, rfl⟩⟩
    · show ((p0 :: rest).foldl (fun s p => s + p.x) 0) / _ = _
      rw [foldl_add_eq (fun p => p.x) (p0 :: rest) 0, zero_add]
    · show ((p0 :: rest).foldl (fun s p => s + p.y) 0) / _ = _
      rw [foldl_add_eq (fun p => p.y) (p0 :: rest) 0, zero_add]
    · show Int.tdiv ((p0 :: rest).foldl (fun s p => s + p.gameTime) 0) _ = _
      rw [foldl_add_eq (fun p => p.gameTime) (p0 :: rest) 0, zero_add]

/-- Claim C4, witness at a concrete two-report cluster. -/
theorem C4_witness :
    2 ≤ ([reportA, reportB] : List PositionData).length ∧
    ∃ r : PositionData,
      averagePosition [reportA, reportB] = some r ∧
      r.x = (([reportA, reportB] : List PositionData).map (fun p => p.x)).sum /
        ((([reportA, reportB] : List PositionData).length : ℚ)) ∧
      r.y = (([reportA, reportB] : List PositionData).map (fun p => p.y)).sum /
        ((([reportA, reportB] : List PositionData).length : ℚ)) ∧
      r.gameTime = Int.tdiv
        ((([reportA, reportB] : List PositionData).map
          (fun p => p.gameTime)).sum)
        ((([reportA, reportB] : List PositionData).length : Int)) ∧
      ∃ p ∈ ([reportA, reportB] : List PositionData),
        r.playerID = p.playerID :=
  ⟨by norm_num,
   C4_average_is_componentwise_mean [reportA, reportB] (by norm_num)⟩

/-- Claim C1, counterexample: the code ignores a move_command naming an
entity the observer has not yet seen — with an empty player map, after
handling a move for player p1, that player is still untracked, so no
KinematicState with the commanded velocity exists. -/
theorem C1_counterexample :
    handleMoveCommand defaultMoveSpeed (fun _ => none)
      { playerID := "p1", vectorX := 1, vectorY := 0, gameTime := 500 } "p1" =
      none ∧
    ∀ s : LocalPlayerState,
      handleMoveCommand defaultMoveSpeed (fun _ => none)
        { playerID := "p1", vectorX := 1, vectorY := 0, gameTime := 500 } "p1" ≠
        some s :=
  ⟨rfl, fun _ h => Option.noConfusion h⟩

/-- Claim C1, amended: a move_command for an entity the observer has not
yet seen is ignored — the handler returns the player map unchanged and
creates no state (the Go handler returns when the lookup fails). -/
theorem C1_amended_unseen_move_ignored (moveSpeed : ℚ)
    (localPlayers : String → Option LocalPlayerState) (moveData : MoveData)
    (h : localPlayers moveData.playerID = none) :
    handleMoveCommand moveSpeed localPlayers moveData = localPlayers := by
  unfold handleMoveCommand
  rw [h]

/-- Claim C1, witness for the amended theorem at a concrete input. -/
theorem C1_witness :
    ((fun _ : String => (none : Option LocalPlayerState)) "p1" = none) ∧
      handleMoveCommand defaultMoveSpeed (fun _ => none)
        { playerID := "p1", vectorX := 1, vectorY := 0, gameTime := 500 } =
        (fun _ => none) :=
  ⟨rfl, C1_amended_unseen_move_ignored defaultMoveSpeed (fun _ => none)
    { playerID := "p1", vectorX := 1, vectorY := 0, gameTime := 500 } rfl⟩

/-- Claim C5: Arbitrate of an empty report sequence is none, and
Arbitrate of exactly one report returns that report unchanged (all of
its fields, its timestamp included). -/
theorem C5_empty_none_singleton_unchanged :
    (∀ eps : ℚ, Arbitrate eps [] = none) ∧
    ∀ (eps : ℚ) (p : PositionData), Arbitrate eps [p] = some p :=
  ⟨fun _ => rfl, fun _ _ => rfl⟩

/-- Claim C7: a velocity-change event on a tracked entity first advances
the state to the event time under the old velocity (position becomes the
old-velocity prediction at that time and the checkpoint becomes the event
time) and only then overwrites the velocity; predicting immediately
afterwards at the new checkpoint returns exactly the advanced position. -/
theorem C7_advance_before_velocity_change (moveSpeed : ℚ)
    (localPlayers : String → Option LocalPlayerState) (moveData : MoveData)
    (player : LocalPlayerState)
    (h : localPlayers moveData.playerID = some player) :
    ∃ moved : LocalPlayerState,
      handleMoveCommand moveSpeed localPlayers moveData =
        (fun pid =>
          if pid = moveData.playerID then some moved else localPlayers pid) ∧
      moved.x = (predictPosition player moveData.gameTime).1 ∧
      moved.y = (predictPosition player moveData.gameTime).2 ∧
      moved.lastUpdateTime = moveData.gameTime ∧
      moved.velocityX = moveData.vectorX * moveSpeed ∧
      moved.velocityY = moveData.vectorY * moveSpeed ∧
      predictPosition moved moveData.gameTime = (moved.x, moved.y) := by
  refine ⟨{ updatePlayerPosition player moveData.gameTime with
            velocityX := moveData.vectorX * moveSpeed
            velocityY := moveData.vectorY * moveSpeed },
    ?_, rfl, rfl, rfl, rfl, rfl, ?_⟩
  · unfold handleMoveCommand
    rw [h]
  · simp [predictPosition, updatePlayerPosition]

/-- Claim C7, witness at a concrete tracked player. -/
theorem C7_witness :
    samplePlayers "p1" = some samplePlayer ∧
    ∃ moved : LocalPlayerState,
      handleMoveCommand defaultMoveSpeed samplePlayers
        { playerID := "p1", vectorX := 1, vectorY := 0, gameTime := 2000 } =
        (fun pid => if pid = "p1" then some moved else samplePlayers pid) ∧
      moved.x = (predictPosition samplePlayer 2000).1 ∧
      moved.y = (predictPosition samplePlayer 2000).2 ∧
      moved.lastUpdateTime = 2000 ∧
      moved.velocityX = 1 * defaultMoveSpeed ∧
      moved.velocityY = 0 * defaultMoveSpeed ∧
      predictPosition moved 2000 = (moved.x, moved.y) :=
  ⟨rfl, C7_advance_before_velocity_change defaultMoveSpeed samplePlayers
    { playerID := "p1", vectorX := 1, vectorY := 0, gameTime := 2000 }
    samplePlayer rfl⟩

/-- Claim C8: predictPosition is a pure function of the state and the
query time — in this state-passing embedding it only returns the
extrapolated pair and the state record is untouched — and for every
query time t, also one before the checkpoint, it returns componentwise
position + velocity * (t - checkpoint) / 1000. -/
theorem C8_predict_is_linear_extrapolation (player : LocalPlayerState)
    (t : Int) :
    predictPosition player t =
      (player.x + player.velocityX *
        (((t : ℚ) - (player.lastUpdateTime : ℚ)) / 1000),
       player.y + player.velocityY *
        (((t : ℚ) - (player.lastUpdateTime : ℚ)) / 1000)) := by
  unfold predictPosition
  push_cast
  rfl

/-- Claim C6: on an authoritative position for a tracked entity, if the
Euclidean distance between the local prediction at the update's time and
the authoritative position is at most 0.5 the observer state is left
entirely unchanged, and if it is strictly above 0.5 the position snaps
to the authoritative values and the checkpoint to the update's time
while both velocity components are kept (the snapped record below only
replaces x, y and lastUpdateTime of the stored player). -/
theorem C6_correction_threshold (localPlayers : String → Option LocalPlayerState)
    (updateData : PositionUpdateData) (player : LocalPlayerState)
    (h : localPlayers updateData.playerID = some player) :
    (Real.sqrt
        (((updateData.x - (predictPosition player updateData.gameTime).1 : ℚ) : ℝ) ^ 2 +
          ((updateData.y - (predictPosition player updateData.gameTime).2 : ℚ) : ℝ) ^ 2) ≤
        1 / 2 ∧
      handlePositionUpdate localPlayers updateData = localPlayers) ∨
    (1 / 2 <
        Real.sqrt
          (((updateData.x - (predictPosition player updateData.gameTime).1 : ℚ) : ℝ) ^ 2 +
            ((updateData.y - (predictPosition player updateData.gameTime).2 : ℚ) : ℝ) ^ 2) ∧
      handlePositionUpdate localPlayers updateData = fun pid =>
        if pid = updateData.playerID then
          some { player with
            x := updateData.x
            y := updateData.y
            lastUpdateTime := updateData.gameTime }
        else localPlayers pid) := by
  by_cases hc : ((1 : ℚ) / 2) ^ 2 <
      (updateData.x - (predictPosition player updateData.gameTime).1) ^ 2 +
      (updateData.y - (predictPosition player updateData.gameTime).2) ^ 2
  · right
    constructor
    · rw [Real.lt_sqrt (by norm_num : (0 : ℝ) ≤ 1 / 2),
        show ((1 : ℝ) / 2) ^ 2 = ((((1 : ℚ) / 2) ^ 2 : ℚ) : ℝ) by norm_num]
      exact_mod_cast hc
    · unfold handlePositionUpdate
      rw [h]
      show (if ((1 : ℚ) / 2) ^ 2 <
          (updateData.x - (predictPosition player updateData.gameTime).1) ^ 2 +
            (updateData.y - (predictPosition player updateData.gameTime).2) ^ 2 then
          fun pid =>
            if pid = updateData.playerID then
              some { player with
                x := updateData.x
                y := updateData.y
                lastUpdateTime := updateData.gameTime }
            else localPlayers pid
        else localPlayers) = _
      rw [if_pos hc]
  · left
    constructor
    · refine Real.sqrt_le_iff.mpr ⟨by norm_num, ?_⟩
      rw [show ((1 : ℝ) / 2) ^ 2 = ((((1 : ℚ) / 2) ^ 2 : ℚ) : ℝ) by norm_num]
      exact_mod_cast not_lt.mp hc
    · unfold handlePositionUpdate
      rw [h]
      show (if ((1 : ℚ) / 2) ^ 2 <
          (updateData.x - (predictPosition player updateData.gameTime).1) ^ 2 +
            (updateData.y - (predictPosition player updateData.gameTime).2) ^ 2 then
          fun pid =>
            if pid = updateData.playerID then
              some { player with
                x := updateData.x
                y := updateData.y
                lastUpdateTime := updateData.gameTime }
            else localPlayers pid
        else localPlayers) = _
      rw [if_neg hc]

/-- Claim C6, witness at a concrete agreeing update (distance zero). -/
theorem C6_witness :
    samplePlayers sampleUpdate.playerID = some samplePlayer ∧
    ((Real.sqrt
        (((sampleUpdate.x -
            (predictPosition samplePlayer sampleUpdate.gameTime).1 : ℚ) : ℝ) ^ 2 +
          ((sampleUpdate.y -
            (predictPosition samplePlayer sampleUpdate.gameTime).2 : ℚ) : ℝ) ^ 2) ≤
        1 / 2 ∧
      handlePositionUpdate samplePlayers sampleUpdate = samplePlayers) ∨
    (1 / 2 <
        Real.sqrt
          (((sampleUpdate.x -
              (predictPosition samplePlayer sampleUpdate.gameTime).1 : ℚ) : ℝ) ^ 2 +
            ((sampleUpdate.y -
              (predictPosition samplePlayer sampleUpdate.gameTime).2 : ℚ) : ℝ) ^ 2) ∧
      handlePositionUpdate samplePlayers sampleUpdate = fun pid =>
        if pid = sampleUpdate.playerID then
          some { samplePlayer with
            x := sampleUpdate.x
            y := sampleUpdate.y
            lastUpdateTime := sampleUpdate.gameTime }
        else samplePlayers pid)) :=
  ⟨rfl, C6_correction_threshold samplePlayers sampleUpdate samplePlayer rfl⟩

/-- Claim C9: the report window keeps at most one report per
(entity, observer) pair — after an inbound batch from one observer,
entries of every other observer and of entities absent from the batch
are untouched, and the entry for this observer and an entity in the
batch is exactly the last report for that entity in the batch
(last-write-wins within the batch, and overwriting whatever the window
held before). -/
theorem C9_window_last_write_wins (clientID : String)
    (batch : List PositionData)
    (window : String → String → Option PositionData) :
    (∀ e o, o ≠ clientID →
      handlePositionSync clientID batch window e o = window e o) ∧
    ∀ e, handlePositionSync clientID batch window e clientID =
      ((batch.filter (fun p => p.playerID = e)).getLast?).elim
        (window e clientID) some := by
  induction batch generalizing window with
  | nil => exact ⟨fun e o _ => rfl, fun e => rfl⟩
  | cons pos rest ih =>
    have hstep : handlePositionSync clientID (pos :: rest) window =
        handlePositionSync clientID rest
          (fun e o =>
            if e = pos.playerID ∧ o = clientID then some pos else window e o) :=
      rfl
    constructor
    · intro e o ho
      rw [hstep, (ih _).1 e o ho]
      simp [ho]
    · intro e
      rw [hstep, (ih _).2 e]
      by_cases he : pos.playerID = e
      · have hfil : (pos :: rest).filter (fun p => p.playerID = e) =
            pos :: rest.filter (fun p => p.playerID = e) := by
          simp [List.filter_cons, he]
        have hwin : (if e = pos.playerID ∧ clientID = clientID then some pos
            else window e clientID) = some pos := by
          simp [he]
        rw [hfil, hwin]
        cases hrf : rest.filter (fun p => p.playerID = e) with
        | nil => rfl
        | cons q qs =>
          rw [List.getLast?_cons_cons]
          cases hlast : (q :: qs).getLast? with
          | none =>
            simp [List.getLast?_eq_none_iff] at hlast
          | some z => rfl
      · have hfil : (pos :: rest).filter (fun p => p.playerID = e) =
            rest.filter (fun p => p.playerID = e) := by
          simp [List.filter_cons, he]
        have hwin : (if e = pos.playerID ∧ clientID = clientID then some pos
            else window e clientID) = window e clientID := by
          simp [Ne.symm he]
        rw [hfil, hwin]

/-- Claim C9, witness at a concrete batch of two reports for the same
entity from one observer over an empty window. -/
theorem C9_witness :
    handlePositionSync "c1" sampleBatch sampleWindow "e" "c2" =
      sampleWindow "e" "c2" ∧
    handlePositionSync "c1" sampleBatch sampleWindow "e" "c1" =
      ((sampleBatch.filter (fun p => p.playerID = "e")).getLast?).elim
        (sampleWindow "e" "c1") some :=
  ⟨(C9_window_last_write_wins "c1" sampleBatch sampleWindow).1 "e" "c2"
      (by decide),
   (C9_window_last_write_wins "c1" sampleBatch sampleWindow).2 "e"⟩

/-- Claim C10: Arbitrate returns some report on every nonempty input —
clusterPositions assigns every input report to exactly one cluster (the
flattened clusters are a permutation of the input) and every cluster is
nonempty (it contains its seed), so the winning cluster is nonempty and
the empty branch of averagePosition is unreachable. -/
theorem C10_nonempty_arbitrate_some (eps : ℚ)
    (positions : List PositionData) (h : positions ≠ []) :
    (∃ r, Arbitrate eps positions = some r) ∧
    List.Perm (clusterPositions eps positions).flatten positions ∧
    ∀ c ∈ clusterPositions eps positions, c ≠ [] := by
  refine ⟨?_, ?_, ?_⟩
  · rcases positions with _ | ⟨p1, rest1⟩
    · exact absurd rfl h
    rcases rest1 with _ | ⟨p2, rest⟩
    · exact ⟨p1, rfl⟩
    rw [Arbitrate_cons_cons]
    set c0 := p1 :: (p2 :: rest).filter (fun q => isSimilar eps p1 q) with hc0
    set crest := clusterPositions eps
      ((p2 :: rest).filter (fun q => !(isSimilar eps p1 q))) with hcrest
    rcases foldl_max_first (c0 :: crest) c0 with
      ⟨heq, _⟩ | ⟨k, hk, heq, _, _, _⟩
    · rw [heq, hc0]
      exact ⟨_, rfl⟩
    · rw [heq]
      have hne : (c0 :: crest)[k] ≠ [] := by
        match k, hk with
        | 0, _ =>
          simp [hc0]
        | k + 1, hk =>
          simp only [List.getElem_cons_succ]
          have hkc : k < crest.length := by
            simpa using hk
          have hmem : crest[k] ∈ crest := List.getElem_mem hkc
          have hmem2 : crest[k] ∈ clusterPartition eps
              ((p2 :: rest).filter (fun q => !(isSimilar eps p1 q))) := by
            rw [← clusterPositions_eq_clusterPartition, ← hcrest]
            exact hmem
          exact clusterPartition_mem_ne_nil eps _ _ hmem2
      rcases hx : (c0 :: crest)[k] with _ | ⟨q, qs⟩
      · exact absurd hx hne
      · exact ⟨_, rfl⟩
  · rw [clusterPositions_eq_clusterPartition]
    exact clusterPartition_join_perm eps positions
  · rw [clusterPositions_eq_clusterPartition]
    exact clusterPartition_mem_ne_nil eps positions

/-- Claim C10, witness at a concrete nonempty input. -/
theorem C10_witness :
    (([reportA] : List PositionData) ≠ []) ∧
    ((∃ r, Arbitrate 1 [reportA] = some r) ∧
      List.Perm (clusterPositions 1 [reportA]).flatten [reportA] ∧
      ∀ c ∈ clusterPositions 1 [reportA], c ≠ []) :=
  ⟨by simp, C10_nonempty_arbitrate_some 1 [reportA] (by simp)⟩

end SyncServer
